import Mathlib

/-!
Shallow embedding of `nevopy/neat/genes.py` (NodeGene, ConnectionGene,
`connection_exists`, `align_connections`) and proofs about it.

Modelling conventions:
* Python object references form trees in all behaviours considered here, so
  `NodeGene` / `ConnectionGene` are a mutual inductive (a node's adjacency
  lists hold connections; a connection holds its endpoint nodes; a hidden
  node may hold its parent pair).
* Activation values and weights are Python floats in the source; every
  operation on them here is pure data movement (store, copy, reset), never
  arithmetic, so they are represented by `Rat`.
* `uuid.uuid4().hex[:12]` draws a fresh random token; it is modelled by an
  explicit `Nat` token argument supplied to the constructor.
* Mutation of an object (`activate`, the `id` setters, …) is modelled by
  state passing: the operation returns the updated object.  An operation
  that can `raise` returns the `Except` of an error code and, where the
  post-state matters, also the (unchanged) object.
* `debug_info` fields and the `print_alignment` debug printing are pure
  diagnostics with no effect on any behaviour modelled here and are omitted.
-/

/-- Roles a node gene can take (source: `class Type(Enum)` inside `NodeGene`,
`INPUT, BIAS, HIDDEN, OUTPUT = range(4)`). -/
inductive NodeType : Type where
  | INPUT
  | BIAS
  | HIDDEN
  | OUTPUT
deriving DecidableEq

/-- A value returned by the `NodeGene.id` property: either the permanent
integer innovation number (`int`) or the provisional token (`str`, the uuid
hex, modelled as `Nat`).  Values of different variants are never equal,
matching Python `==` on an `int` and a `str`. -/
inductive GeneId : Type where
  | perm (i : Int)
  | temp (t : Nat)
deriving DecidableEq

/-- The exception classes declared at the bottom of `genes.py`. -/
inductive GeneError : Type where
  | nodeIdException
  | connectionIdException
  | nodeParentsException
deriving DecidableEq

mutual
/-- `NodeGene`: fields in the order they are assigned in `__init__`
(`_id`, `_type`, `_initial_activation`, `_activation`, `_function`,
`_parent_connection_nodes`, `in_connections`, `out_connections`,
`_temp_id`). -/
inductive NodeGene : Type where
  | mk
      (nid : Option Int)
      (node_type : NodeType)
      (initial_activation : Rat)
      (activation : Rat)
      (func : Rat → Rat)
      (parents : Option (NodeGene × NodeGene))
      (in_connections : List ConnectionGene)
      (out_connections : List ConnectionGene)
      (temp_id : Option Nat) : NodeGene

/-- `ConnectionGene`: fields in the order they are assigned in `__init__`
(`_id`, `_from_node`, `_to_node`, `weight`, `enabled`). -/
inductive ConnectionGene : Type where
  | mk
      (cid : Option Int)
      (from_node : NodeGene)
      (to_node : NodeGene)
      (weight : Rat)
      (enabled : Bool) : ConnectionGene
end

/-- Raw field `_id` of a node. -/
def NodeGene.nid : NodeGene → Option Int
  | .mk i _ _ _ _ _ _ _ _ => i

/-- Raw field `_type` of a node. -/
def NodeGene.node_type : NodeGene → NodeType
  | .mk _ t _ _ _ _ _ _ _ => t

/-- Raw field `_initial_activation` of a node. -/
def NodeGene.initial_activation : NodeGene → Rat
  | .mk _ _ a _ _ _ _ _ _ => a

/-- Property `activation`: the node's cached activation value
(raw field `_activation`). -/
def NodeGene.activation : NodeGene → Rat
  | .mk _ _ _ a _ _ _ _ _ => a

/-- Raw field `_function` of a node. -/
def NodeGene.func : NodeGene → Rat → Rat
  | .mk _ _ _ _ f _ _ _ _ => f

/-- Raw field `_parent_connection_nodes` of a node. -/
def NodeGene.parents : NodeGene → Option (NodeGene × NodeGene)
  | .mk _ _ _ _ _ p _ _ _ => p

/-- Public attribute `in_connections` of a node. -/
def NodeGene.in_connections : NodeGene → List ConnectionGene
  | .mk _ _ _ _ _ _ ic _ _ => ic

/-- Public attribute `out_connections` of a node. -/
def NodeGene.out_connections : NodeGene → List ConnectionGene
  | .mk _ _ _ _ _ _ _ oc _ => oc

/-- Raw field `_temp_id` of a node. -/
def NodeGene.temp_id : NodeGene → Option Nat
  | .mk _ _ _ _ _ _ _ _ t => t

/-- Raw field `_id` of a connection. -/
def ConnectionGene.cid : ConnectionGene → Option Int
  | .mk i _ _ _ _ => i

/-- Property `from_node` of a connection. -/
def ConnectionGene.from_node : ConnectionGene → NodeGene
  | .mk _ f _ _ _ => f

/-- Property `to_node` of a connection. -/
def ConnectionGene.to_node : ConnectionGene → NodeGene
  | .mk _ _ t _ _ => t

/-- Public attribute `weight` of a connection. -/
def ConnectionGene.weight : ConnectionGene → Rat
  | .mk _ _ _ w _ => w

/-- Public attribute `enabled` of a connection. -/
def ConnectionGene.enabled : ConnectionGene → Bool
  | .mk _ _ _ _ e => e

/-- `NodeGene.__init__`.  `fresh_token` models the draw `uuid.uuid4().hex[:12]`
performed on line 85 when `node_id` is `None`:
`self._temp_id = None if self._id is not None else uuid.uuid4().hex[:12]`. -/
def NodeGene.new (node_id : Option Int) (node_type : NodeType)
    (activation_func : Rat → Rat) (initial_activation : Rat)
    (parent_connection_nodes : Option (NodeGene × NodeGene))
    (fresh_token : Nat) : NodeGene :=
  .mk node_id node_type initial_activation initial_activation activation_func
    parent_connection_nodes [] []
    (if node_id ≠ none then none else some fresh_token)

/-- `ConnectionGene.__init__`. -/
def ConnectionGene.new (cid : Option Int) (from_node to_node : NodeGene)
    (weight : Rat) (enabled : Bool) : ConnectionGene :=
  .mk cid from_node to_node weight enabled

/-- Property getter `NodeGene.id`:
`return self._id if self._id is not None else self._temp_id`.
The Python return value is an `int`, a `str`, or (unreachably) `None`;
hence `Option GeneId`. -/
def NodeGene.id : NodeGene → Option GeneId
  | n => match n.nid with
    | some i => some (GeneId.perm i)
    | none => n.temp_id.map GeneId.temp

/-- Property setter `NodeGene.id` (state passing: returns the raise/ok outcome
together with the object after the call).  Source:
`if self._id is not None: raise NodeIdException(...)` then
`self._id = new_id; self._temp_id = None`. -/
def NodeGene.trySetId (n : NodeGene) (new_id : Int) :
    Except GeneError Unit × NodeGene :=
  if n.nid ≠ none then
    (.error .nodeIdException, n)
  else
    match n with
    | .mk _ t a0 a f p ic oc _ =>
        (.ok (), .mk (some new_id) t a0 a f p ic oc none)

/-- `NodeGene.is_id_temp`: `return self._id is None`. -/
def NodeGene.is_id_temp (n : NodeGene) : Bool :=
  n.nid = none

/-- Property getter `NodeGene.parent_connection_nodes`:
raises `NodeParentsException` on a non-hidden node, otherwise returns
`self._parent_connection_nodes`. -/
def NodeGene.parent_connection_nodes (n : NodeGene) :
    Except GeneError (Option (NodeGene × NodeGene)) :=
  if n.node_type ≠ NodeType.HIDDEN then
    .error .nodeParentsException
  else
    .ok n.parents

/-- `NodeGene.activate`: `self._activation = self._function(x)`. -/
def NodeGene.activate (n : NodeGene) (x : Rat) : NodeGene :=
  match n with
  | .mk i t a0 _ f p ic oc tmp => .mk i t a0 (f x) f p ic oc tmp

/-- `NodeGene.shallow_copy`: calls `NodeGene.__init__` with the source's
`_id`, `_type`, `_function`, `_initial_activation` and
`_parent_connection_nodes`.  `fresh_token` models the uuid draw the
constructor performs when `_id` is `None`. -/
def NodeGene.shallow_copy (n : NodeGene) (fresh_token : Nat) : NodeGene :=
  NodeGene.new n.nid n.node_type n.func n.initial_activation n.parents
    fresh_token

/-- `NodeGene.reset_activation`: `self._activation = self._initial_activation`. -/
def NodeGene.reset_activation (n : NodeGene) : NodeGene :=
  match n with
  | .mk i t a0 _ f p ic oc tmp => .mk i t a0 a0 f p ic oc tmp

/-- Property getter `ConnectionGene.id`: `return self._id`. -/
def ConnectionGene.id (c : ConnectionGene) : Option Int :=
  c.cid

/-- Property setter `ConnectionGene.id` (state passing, as for nodes).
Source: `if self._id is not None: raise ConnectionIdException(...)` then
`self._id = new_id`. -/
def ConnectionGene.trySetId (c : ConnectionGene) (new_id : Int) :
    Except GeneError Unit × ConnectionGene :=
  if c.cid ≠ none then
    (.error .connectionIdException, c)
  else
    match c with
    | .mk _ f t w e => (.ok (), .mk (some new_id) f t w e)

/-- `connection_exists(src_node, dest_node)`.  Translated exactly: the source
iterates `zip(dest_node.in_connections, src_node.out_connections)` and
returns `True` on the first pair satisfying
`dest_cin.from_node.id == src_node.id or src_cout.to_node.id == dest_node.id`. -/
def connection_exists (src_node dest_node : NodeGene) : Bool :=
  (List.zip dest_node.in_connections src_node.out_connections).any
    (fun p =>
      decide (p.1.from_node.id = src_node.id) ||
      decide (p.2.to_node.id = dest_node.id))

/-- Models the external wiring step that appends a connection to a node's
`out_connections` list (done by genome builders, not by `genes.py`). -/
def NodeGene.add_out_connection (n : NodeGene) (c : ConnectionGene) : NodeGene :=
  match n with
  | .mk i t a0 a f p ic oc tmp => .mk i t a0 a f p ic (oc ++ [c]) tmp

/-- Models the external wiring step that appends a connection to a node's
`in_connections` list. -/
def NodeGene.add_in_connection (n : NodeGene) (c : ConnectionGene) : NodeGene :=
  match n with
  | .mk i t a0 a f p ic oc tmp => .mk i t a0 a f p (ic ++ [c]) oc tmp

/-- The order Python's `sorted` uses on the keys of the alignment dictionaries.
The keys are connection ids (`Optional[int]`); on integer keys it is the
integer order, exactly as in Python.  (On key sets mixing `None` with
integers Python's `sorted` raises `TypeError`; `none` is ordered first here,
and every theorem below stays on the all-integer domain.) -/
def keyLE (a b : Option Int) : Prop :=
  match a, b with
  | none, _ => True
  | some _, none => False
  | some x, some y => x ≤ y

instance : DecidableRel keyLE := by
  intro a b
  cases a <;> cases b <;> simp only [keyLE] <;> infer_instance

instance : IsTotal (Option Int) keyLE := by
  constructor
  intro a b
  cases a <;> cases b <;> simp [keyLE] <;> omega

instance : IsTrans (Option Int) keyLE := by
  constructor
  intro a b c hab hbc
  cases a <;> cases b <;> cases c <;> simp_all [keyLE] <;> omega

instance : IsAntisymm (Option Int) keyLE := by
  constructor
  intro a b hab hba
  cases a <;> cases b <;> simp_all [keyLE] <;> omega

/-- Strict version of `keyLE`; used to state strict ascending order. -/
def keyLT (a b : Option Int) : Prop :=
  match a, b with
  | none, none => False
  | none, some _ => True
  | some _, none => False
  | some x, some y => x < y

/-- Lookup in the dictionary `{c.id: c for c in l}`: a dict comprehension
keeps, for each key, the value of the last list element with that key; a
missing key yields `none` (the source guards the subscript with
`cid in con_dict`). -/
def dict_get? (l : List ConnectionGene) (k : Option Int) :
    Option ConnectionGene :=
  match l with
  | [] => none
  | c :: rest =>
      match dict_get? rest k with
      | some r => some r
      | none => if c.id = k then some c else none

/-- `sorted(set(con_dict1.keys()) | set(con_dict2.keys()))`: the distinct
keys of both dictionaries, in ascending order. -/
def align_union (con_list1 con_list2 : List ConnectionGene) :
    List (Option Int) :=
  List.insertionSort keyLE
    ((con_list1.map ConnectionGene.id ++ con_list2.map ConnectionGene.id).dedup)

/-- `align_connections(con_list1, con_list2)`: for each `cid` of the sorted
key union, in order, `aligned1` receives `con_dict1[cid] if cid in con_dict1
else None` and `aligned2` the same for `con_dict2`.  (`print_alignment`
debug output omitted.) -/
def align_connections (con_list1 con_list2 : List ConnectionGene) :
    List (Option ConnectionGene) × List (Option ConnectionGene) :=
  let union := align_union con_list1 con_list2
  (union.map (dict_get? con_list1), union.map (dict_get? con_list2))

/-- Identity activation transform used by the worked example. -/
def exFn : Rat → Rat := fun x => x

/-- Source node for the worked-example connections. -/
def exNodeA : NodeGene := NodeGene.new (some 100) NodeType.INPUT exFn 0 none 0

/-- Destination node for the worked-example connections. -/
def exNodeB : NodeGene := NodeGene.new (some 101) NodeType.OUTPUT exFn 0 none 0

/-- `conn(id=1)` of list A in the worked example. -/
def cA1 : ConnectionGene := ConnectionGene.new (some 1) exNodeA exNodeB 1 true

/-- `conn(id=3)` of list A. -/
def cA3 : ConnectionGene := ConnectionGene.new (some 3) exNodeA exNodeB 1 true

/-- `conn(id=5)` of list A. -/
def cA5 : ConnectionGene := ConnectionGene.new (some 5) exNodeA exNodeB 1 true

/-- `conn(id=2)` of list B. -/
def cB2 : ConnectionGene := ConnectionGene.new (some 2) exNodeA exNodeB 2 true

/-- `conn(id=3)` of list B. -/
def cB3 : ConnectionGene := ConnectionGene.new (some 3) exNodeA exNodeB 2 true

/-- `conn(id=4)` of list B. -/
def cB4 : ConnectionGene := ConnectionGene.new (some 4) exNodeA exNodeB 2 true

/-- Worked-example list `A = [conn(id=1), conn(id=3), conn(id=5)]`. -/
def exA : List ConnectionGene := [cA1, cA3, cA5]

/-- Worked-example list `B = [conn(id=2), conn(id=3), conn(id=4)]`. -/
def exB : List ConnectionGene := [cB2, cB3, cB4]


/-- A successful dictionary lookup returns a member of the list whose id is
the looked-up key. -/
theorem dict_get?_eq_some_iff_aux {l : List ConnectionGene} {k : Option Int}
    {c : ConnectionGene} (h : dict_get? l k = some c) : c ∈ l ∧ c.id = k := by
  induction l with
  | nil => simp [dict_get?] at h
  | cons d rest ih =>
      rw [dict_get?] at h
      cases hrest : dict_get? rest k with
      | some r =>
          rw [hrest] at h
          cases h
          obtain ⟨hm, hk⟩ := ih hrest
          exact ⟨List.mem_cons_of_mem _ hm, hk⟩
      | none =>
          rw [hrest] at h
          by_cases hd : d.id = k
          · rw [if_pos hd] at h
            cases h
            exact ⟨List.mem_cons_self _ _, hd⟩
          · rw [if_neg hd] at h
            cases h

/-- A key that occurs among the list's ids has a successful lookup. -/
theorem dict_get?_isSome_of_mem {l : List ConnectionGene} {k : Option Int}
    (h : k ∈ l.map ConnectionGene.id) : ∃ c, dict_get? l k = some c := by
  induction l with
  | nil => simp at h
  | cons d rest ih =>
      rw [List.map_cons, List.mem_cons] at h
      rw [dict_get?]
      cases hrest : dict_get? rest k with
      | some r => exact ⟨r, rfl⟩
      | none =>
          rcases h with h | h
          · exact ⟨d, by rw [if_pos h.symm]⟩
          · obtain ⟨c, hc⟩ := ih h
            rw [hc] at hrest
            cases hrest

/-- A key that does not occur among the list's ids looks up to `none`. -/
theorem dict_get?_eq_none_of_not_mem {l : List ConnectionGene} {k : Option Int}
    (h : k ∉ l.map ConnectionGene.id) : dict_get? l k = none := by
  induction l with
  | nil => rfl
  | cons d rest ih =>
      rw [List.map_cons, List.mem_cons] at h
      push_neg at h
      rw [dict_get?, ih h.2, if_neg (fun hd => h.1 hd.symm)]

/-- With ids unique in the list, looking up a member's id returns that
member. -/
theorem dict_get?_self {l : List ConnectionGene} {c : ConnectionGene}
    (hc : c ∈ l) (hn : (l.map ConnectionGene.id).Nodup) :
    dict_get? l c.id = some c := by
  induction l with
  | nil => simp at hc
  | cons d rest ih =>
      rw [List.map_cons, List.nodup_cons] at hn
      rw [List.mem_cons] at hc
      rw [dict_get?]
      rcases hc with hc | hc
      · subst hc
        rw [dict_get?_eq_none_of_not_mem hn.1, if_pos rfl]
      · rw [ih hc hn.2]

/-- Membership in the sorted key union. -/
theorem mem_align_union {l1 l2 : List ConnectionGene} {k : Option Int} :
    k ∈ align_union l1 l2 ↔
      k ∈ l1.map ConnectionGene.id ∨ k ∈ l2.map ConnectionGene.id := by
  unfold align_union
  rw [List.mem_insertionSort, List.mem_dedup, List.mem_append]

/-- The sorted key union has no duplicates. -/
theorem align_union_nodup (l1 l2 : List ConnectionGene) :
    (align_union l1 l2).Nodup :=
  (List.perm_insertionSort keyLE _).nodup_iff.mpr (List.nodup_dedup _)

/-- The key union is sorted by `keyLE`. -/
theorem align_union_sorted (l1 l2 : List ConnectionGene) :
    List.Sorted keyLE (align_union l1 l2) :=
  List.sorted_insertionSort keyLE _

/-- Length of the key union: the number of distinct ids occurring in either
list. -/
theorem align_union_length (l1 l2 : List ConnectionGene) :
    (align_union l1 l2).length =
      ((l1.map ConnectionGene.id ++ l2.map ConnectionGene.id).dedup).length :=
  (List.perm_insertionSort keyLE _).length_eq

/-- The key union is strictly ascending. -/
theorem align_union_pairwise_lt (l1 l2 : List ConnectionGene) :
    (align_union l1 l2).Pairwise keyLT := by
  refine ((align_union_sorted l1 l2).and (align_union_nodup l1 l2)).imp ?_
  intro a b hab
  obtain ⟨hle, hne⟩ := hab
  cases a <;> cases b <;> simp_all [keyLE, keyLT] <;> omega

/-- The key union does not depend on the order of the two input lists. -/
theorem align_union_comm (l1 l2 : List ConnectionGene) :
    align_union l2 l1 = align_union l1 l2 := by
  refine List.eq_of_perm_of_sorted ?_ (align_union_sorted l2 l1)
    (align_union_sorted l1 l2)
  refine ((List.perm_insertionSort keyLE _).trans ?_).trans
    (List.perm_insertionSort keyLE _).symm
  exact List.perm_append_comm.dedup

/-- The first component of the alignment, unfolded. -/
theorem align_connections_fst (l1 l2 : List ConnectionGene) :
    (align_connections l1 l2).1 = (align_union l1 l2).map (dict_get? l1) :=
  rfl

/-- The second component of the alignment, unfolded. -/
theorem align_connections_snd (l1 l2 : List ConnectionGene) :
    (align_connections l1 l2).2 = (align_union l1 l2).map (dict_get? l2) :=
  rfl

/-- Zipping a list with its image under `f` pairs each element with its
image. -/
theorem zip_self_map {α β : Type} (l : List α) (f : α → β) :
    l.zip (l.map f) = l.map fun a => (a, f a) := by
  have h := List.zip_map' id f l
  simpa using h

/-- `List.get` through `List.map`, with the index transported. -/
theorem get_map_fin {α β : Type} (f : α → β) (l : List α)
    (i : Fin (l.map f).length) :
    (l.map f).get i = f (l.get (i.cast (by simp))) := by
  simp

/-- C1: for lists of connection genes in which every gene has a permanent
integer identity, unique within each list, `align_connections` returns two
sequences of equal length; that length is the number of distinct identities
occurring in either list; and at every position at least one side holds a
gene. -/
theorem align_connections_shape (l1 l2 : List ConnectionGene)
    (h1 : ∀ c ∈ l1, ConnectionGene.id c ≠ none)
    (h2 : ∀ c ∈ l2, ConnectionGene.id c ≠ none)
    (hn1 : (l1.map ConnectionGene.id).Nodup)
    (hn2 : (l2.map ConnectionGene.id).Nodup) :
    (align_connections l1 l2).1.length = (align_connections l1 l2).2.length ∧
    (align_connections l1 l2).1.length =
      ((l1.map ConnectionGene.id ++ l2.map ConnectionGene.id).dedup).length ∧
    ∀ p ∈ (align_connections l1 l2).1.zip (align_connections l1 l2).2,
      p.1 ≠ none ∨ p.2 ≠ none := by
  refine ⟨by simp [align_connections_fst, align_connections_snd], ?_, ?_⟩
  · rw [align_connections_fst, List.length_map, align_union_length]
  · intro p hp
    rw [align_connections_fst, align_connections_snd] at hp
    rw [List.zip_map' (dict_get? l1) (dict_get? l2)] at hp
    obtain ⟨k, hk, rfl⟩ := List.mem_map.mp hp
    rcases mem_align_union.mp hk with h | h
    · obtain ⟨c, hc⟩ := dict_get?_isSome_of_mem h
      exact Or.inl (by simp [hc])
    · obtain ⟨c, hc⟩ := dict_get?_isSome_of_mem h
      exact Or.inr (by simp [hc])

/-- Witness for C1 at the worked example. -/
theorem align_connections_shape_witness :
    ((∀ c ∈ exA, ConnectionGene.id c ≠ none) ∧
     (∀ c ∈ exB, ConnectionGene.id c ≠ none) ∧
     (exA.map ConnectionGene.id).Nodup ∧
     (exB.map ConnectionGene.id).Nodup) ∧
    ((align_connections exA exB).1.length =
        (align_connections exA exB).2.length ∧
     (align_connections exA exB).1.length =
        ((exA.map ConnectionGene.id ++ exB.map ConnectionGene.id).dedup).length ∧
     ∀ p ∈ (align_connections exA exB).1.zip (align_connections exA exB).2,
       p.1 ≠ none ∨ p.2 ≠ none) :=
  ⟨⟨by decide, by decide, by decide, by decide⟩,
   align_connections_shape exA exB (by decide) (by decide) (by decide)
     (by decide)⟩

/-- Positions of the first alignment output, described by the key union:
each position holds the gene of the corresponding key from the list if the
list has it, else the absence-marker. -/
theorem align_positions_aux (l : List ConnectionGene)
    (u : List (Option Int)) (hn : (l.map ConnectionGene.id).Nodup) :
    ∀ p ∈ u.zip (u.map (dict_get? l)),
      (∀ c ∈ l, ConnectionGene.id c = p.1 → p.2 = some c) ∧
      (p.1 ∉ l.map ConnectionGene.id → p.2 = none) := by
  intro p hp
  rw [zip_self_map] at hp
  obtain ⟨k, hk, rfl⟩ := List.mem_map.mp hp
  constructor
  · intro c hc hck
    subst hck
    exact dict_get?_self hc hn
  · intro hnot
    exact dict_get?_eq_none_of_not_mem hnot

/-- Each gene of the list occupies exactly one position of its alignment
output (the output being the key union mapped through the dictionary
lookup). -/
theorem align_unique_position_aux (l1 l2 l : List ConnectionGene)
    (hn : (l.map ConnectionGene.id).Nodup)
    (hmem : ∀ c ∈ l, ConnectionGene.id c ∈ align_union l1 l2) :
    ∀ c ∈ l, ∃! i : Fin ((align_union l1 l2).map (dict_get? l)).length,
      ((align_union l1 l2).map (dict_get? l)).get i = some c := by
  intro c hc
  obtain ⟨j, hj⟩ := List.mem_iff_get.mp (hmem c hc)
  have hlen : (j : ℕ) < ((align_union l1 l2).map (dict_get? l)).length := by
    simpa using j.2
  refine ⟨⟨j, hlen⟩, ?_, ?_⟩
  · show ((align_union l1 l2).map (dict_get? l)).get ⟨(j : ℕ), hlen⟩ = some c
    rw [get_map_fin]
    have hcast : (Fin.cast (by simp) ⟨(j : ℕ), hlen⟩ :
        Fin (align_union l1 l2).length) = j := Fin.ext rfl
    rw [hcast, hj]
    exact dict_get?_self hc hn
  · intro i hi
    rw [get_map_fin] at hi
    obtain ⟨_, hkey⟩ := dict_get?_eq_some_iff_aux hi
    have hkey' : (align_union l1 l2).get (Fin.cast (by simp) i) =
        (align_union l1 l2).get j := by rw [hj, ← hkey]
    have := (align_union_nodup l1 l2).get_inj_iff.mp hkey'
    apply Fin.ext
    have hval : ((Fin.cast (by simp) i : Fin (align_union l1 l2).length) : ℕ)
        = (j : ℕ) := by rw [this]
    simpa using hval

/-- C2: for lists of connection genes with unique permanent identities, the
alignment visits identities in strictly ascending numeric order; each
output holds, at the position of an identity, that identity's gene from its
input list if present and the absence-marker otherwise; every supplied gene
appears at exactly one position; and the worked example
`A = [1,3,5]`, `B = [2,3,4]` produces the pattern
`[(A,-),(-,B),(A,B),(-,B),(A,-)]` over identities `[1,2,3,4,5]`. -/
theorem align_connections_canonical (l1 l2 : List ConnectionGene)
    (h1 : ∀ c ∈ l1, ConnectionGene.id c ≠ none)
    (h2 : ∀ c ∈ l2, ConnectionGene.id c ≠ none)
    (hn1 : (l1.map ConnectionGene.id).Nodup)
    (hn2 : (l2.map ConnectionGene.id).Nodup) :
    (align_union l1 l2).Pairwise keyLT ∧
    (∀ p ∈ (align_union l1 l2).zip (align_connections l1 l2).1,
      (∀ c ∈ l1, ConnectionGene.id c = p.1 → p.2 = some c) ∧
      (p.1 ∉ l1.map ConnectionGene.id → p.2 = none)) ∧
    (∀ p ∈ (align_union l1 l2).zip (align_connections l1 l2).2,
      (∀ c ∈ l2, ConnectionGene.id c = p.1 → p.2 = some c) ∧
      (p.1 ∉ l2.map ConnectionGene.id → p.2 = none)) ∧
    (∀ c ∈ l1, ∃! i : Fin (align_connections l1 l2).1.length,
      (align_connections l1 l2).1.get i = some c) ∧
    (∀ c ∈ l2, ∃! i : Fin (align_connections l1 l2).2.length,
      (align_connections l1 l2).2.get i = some c) ∧
    align_connections exA exB =
      ([some cA1, none, some cA3, none, some cA5],
       [none, some cB2, some cB3, some cB4, none]) := by
  refine ⟨align_union_pairwise_lt l1 l2, ?_, ?_, ?_, ?_, by rfl⟩
  · rw [align_connections_fst]
    exact align_positions_aux l1 (align_union l1 l2) hn1
  · rw [align_connections_snd]
    exact align_positions_aux l2 (align_union l1 l2) hn2
  · rw [align_connections_fst]
    exact align_unique_position_aux l1 l2 l1 hn1
      (fun c hc => mem_align_union.mpr (Or.inl (List.mem_map_of_mem _ hc)))
  · rw [align_connections_snd]
    exact align_unique_position_aux l1 l2 l2 hn2
      (fun c hc => mem_align_union.mpr (Or.inr (List.mem_map_of_mem _ hc)))

/-- Witness for C2 at the worked example. -/
theorem align_connections_canonical_witness :
    ((∀ c ∈ exA, ConnectionGene.id c ≠ none) ∧
     (∀ c ∈ exB, ConnectionGene.id c ≠ none) ∧
     (exA.map ConnectionGene.id).Nodup ∧
     (exB.map ConnectionGene.id).Nodup) ∧
    ((align_union exA exB).Pairwise keyLT ∧
     (∀ p ∈ (align_union exA exB).zip (align_connections exA exB).1,
       (∀ c ∈ exA, ConnectionGene.id c = p.1 → p.2 = some c) ∧
       (p.1 ∉ exA.map ConnectionGene.id → p.2 = none)) ∧
     (∀ p ∈ (align_union exA exB).zip (align_connections exA exB).2,
       (∀ c ∈ exB, ConnectionGene.id c = p.1 → p.2 = some c) ∧
       (p.1 ∉ exB.map ConnectionGene.id → p.2 = none)) ∧
     (∀ c ∈ exA, ∃! i : Fin (align_connections exA exB).1.length,
       (align_connections exA exB).1.get i = some c) ∧
     (∀ c ∈ exB, ∃! i : Fin (align_connections exA exB).2.length,
       (align_connections exA exB).2.get i = some c) ∧
     align_connections exA exB =
       ([some cA1, none, some cA3, none, some cA5],
        [none, some cB2, some cB3, some cB4, none])) :=
  ⟨⟨by decide, by decide, by decide, by decide⟩,
   align_connections_canonical exA exB (by decide) (by decide) (by decide)
     (by decide)⟩

/-- C5: `align_connections(B, A)` is `align_connections(A, B)` with the two
output sequences swapped position-for-position. -/
theorem align_connections_symm (l1 l2 : List ConnectionGene)
    (h1 : ∀ c ∈ l1, ConnectionGene.id c ≠ none)
    (h2 : ∀ c ∈ l2, ConnectionGene.id c ≠ none)
    (hn1 : (l1.map ConnectionGene.id).Nodup)
    (hn2 : (l2.map ConnectionGene.id).Nodup) :
    (align_connections l2 l1).1 = (align_connections l1 l2).2 ∧
    (align_connections l2 l1).2 = (align_connections l1 l2).1 := by
  constructor
  · rw [align_connections_fst, align_connections_snd, align_union_comm]
  · rw [align_connections_snd, align_connections_fst, align_union_comm]

/-- Witness for C5 at the worked example. -/
theorem align_connections_symm_witness :
    ((∀ c ∈ exA, ConnectionGene.id c ≠ none) ∧
     (∀ c ∈ exB, ConnectionGene.id c ≠ none) ∧
     (exA.map ConnectionGene.id).Nodup ∧
     (exB.map ConnectionGene.id).Nodup) ∧
    ((align_connections exB exA).1 = (align_connections exA exB).2 ∧
     (align_connections exB exA).2 = (align_connections exA exB).1) :=
  ⟨⟨by decide, by decide, by decide, by decide⟩,
   align_connections_symm exA exB (by decide) (by decide) (by decide)
     (by decide)⟩

/-- C4: on a node gene or a connection gene whose permanent identity is set,
a further identity assignment raises the corresponding exception and the
stored identity is unchanged. -/
theorem id_setter_permanent (n : NodeGene) (c : ConnectionGene)
    (i j x y : Int) (hn : n.nid = some i) (hc : ConnectionGene.id c = some j) :
    (n.trySetId x).1 = Except.error GeneError.nodeIdException ∧
    (n.trySetId x).2.id = some (GeneId.perm i) ∧
    (c.trySetId y).1 = Except.error GeneError.connectionIdException ∧
    (c.trySetId y).2.id = some j := by
  have hn' : n.nid ≠ none := by rw [hn]; exact Option.some_ne_none i
  have hc' : c.cid ≠ none := by
    rw [show c.cid = ConnectionGene.id c from rfl, hc]
    exact Option.some_ne_none j
  refine ⟨?_, ?_, ?_, ?_⟩
  · unfold NodeGene.trySetId
    rw [if_pos hn']
  · unfold NodeGene.trySetId
    rw [if_pos hn']
    simp [NodeGene.id, hn]
  · unfold ConnectionGene.trySetId
    rw [if_pos hc']
  · unfold ConnectionGene.trySetId
    rw [if_pos hc']
    exact hc

/-- Witness for C4 on a node with id 100 and a connection with id 1. -/
theorem id_setter_permanent_witness :
    (exNodeA.nid = some 100 ∧ ConnectionGene.id cA1 = some 1) ∧
    ((exNodeA.trySetId 200).1 = Except.error GeneError.nodeIdException ∧
     (exNodeA.trySetId 200).2.id = some (GeneId.perm 100) ∧
     (cA1.trySetId 9).1 = Except.error GeneError.connectionIdException ∧
     (cA1.trySetId 9).2.id = some 1) :=
  ⟨⟨by decide, by decide⟩,
   id_setter_permanent exNodeA cA1 100 1 200 9 (by decide) (by decide)⟩

/-- C6: reading the parent pair of an INPUT, BIAS or OUTPUT node raises
`NodeParentsException`; on a HIDDEN node constructed with a parent pair it
returns that pair. -/
theorem parent_pair_contract (n : NodeGene) (node_id : Option Int)
    (f : Rat → Rat) (a0 : Rat) (p : NodeGene × NodeGene) (tok : Nat)
    (hrole : n.node_type = NodeType.INPUT ∨ n.node_type = NodeType.BIAS ∨
      n.node_type = NodeType.OUTPUT) :
    n.parent_connection_nodes = Except.error GeneError.nodeParentsException ∧
    (NodeGene.new node_id NodeType.HIDDEN f a0 (some p)
        tok).parent_connection_nodes = Except.ok (some p) := by
  constructor
  · rw [NodeGene.parent_connection_nodes]
    rcases hrole with h | h | h <;> rw [if_pos (by rw [h]; decide)]
  · rfl

/-- Witness for C6 on an INPUT node and a HIDDEN node. -/
theorem parent_pair_contract_witness :
    (exNodeA.node_type = NodeType.INPUT ∨ exNodeA.node_type = NodeType.BIAS ∨
      exNodeA.node_type = NodeType.OUTPUT) ∧
    (exNodeA.parent_connection_nodes =
        Except.error GeneError.nodeParentsException ∧
     (NodeGene.new none NodeType.HIDDEN exFn 0 (some (exNodeA, exNodeB))
        5).parent_connection_nodes = Except.ok (some (exNodeA, exNodeB))) :=
  ⟨Or.inl rfl,
   parent_pair_contract exNodeA none exFn 0 (exNodeA, exNodeB) 5 (Or.inl rfl)⟩

/-- `activate` leaves `_initial_activation` untouched. -/
theorem activate_initial (n : NodeGene) (x : Rat) :
    (n.activate x).initial_activation = n.initial_activation := by
  cases n
  rfl

/-- A whole sequence of `activate` calls leaves `_initial_activation`
untouched. -/
theorem foldl_activate_initial (xs : List Rat) (n : NodeGene) :
    (xs.foldl NodeGene.activate n).initial_activation =
      n.initial_activation := by
  induction xs generalizing n with
  | nil => rfl
  | cons x xs ih => rw [List.foldl_cons, ih, activate_initial]

/-- `reset_activation` copies `_initial_activation` into the cache. -/
theorem reset_activation_activation (n : NodeGene) :
    n.reset_activation.activation = n.initial_activation := by
  cases n
  rfl

/-- A shallow copy's cache starts at the source's `_initial_activation`. -/
theorem shallow_copy_activation (n : NodeGene) (tok : Nat) :
    (n.shallow_copy tok).activation = n.initial_activation := by
  cases n
  rfl

/-- C7: a shallow copy has empty adjacency lists; equal role, activation
transform, initial activation and parent-pair reference; the same permanent
id if the source has one, and otherwise a fresh provisional token distinct
from the source's (the supplied token models the fresh uuid draw, so it is
assumed to differ from the source's token). -/
theorem shallow_copy_spec (n : NodeGene) (tok : Nat)
    (hfresh : n.temp_id ≠ some tok) :
    (n.shallow_copy tok).in_connections = [] ∧
    (n.shallow_copy tok).out_connections = [] ∧
    (n.shallow_copy tok).node_type = n.node_type ∧
    (n.shallow_copy tok).func = n.func ∧
    (n.shallow_copy tok).initial_activation = n.initial_activation ∧
    (n.shallow_copy tok).parents = n.parents ∧
    (∀ i : Int, n.nid = some i →
      (n.shallow_copy tok).id = some (GeneId.perm i)) ∧
    (n.nid = none →
      (n.shallow_copy tok).id = some (GeneId.temp tok) ∧
      (n.shallow_copy tok).id ≠ n.id) := by
  obtain ⟨nid, t, a0, a, f, p, ic, oc, tmp⟩ := n
  refine ⟨rfl, rfl, rfl, rfl, rfl, rfl, ?_, ?_⟩
  · intro i hi
    simp only [NodeGene.nid] at hi
    subst hi
    rfl
  · intro hnone
    simp only [NodeGene.nid] at hnone
    subst hnone
    simp only [NodeGene.temp_id] at hfresh
    constructor
    · rfl
    · simp only [NodeGene.shallow_copy, NodeGene.new, NodeGene.id,
        NodeGene.nid, NodeGene.temp_id]
      cases tmp with
      | none => simp
      | some t0 =>
          simp only [Option.map_some, ne_eq, Option.some_inj, reduceIte]
          intro hcontra
          apply hfresh
          cases hcontra
          rfl

/-- Witness for C7 on a node with a provisional token distinct from the
fresh one. -/
theorem shallow_copy_spec_witness :
    ((NodeGene.new none NodeType.HIDDEN exFn 0 (some (exNodeA, exNodeB))
        3).temp_id ≠ some 4) ∧
    ((NodeGene.new none NodeType.HIDDEN exFn 0 (some (exNodeA, exNodeB))
        3).shallow_copy 4).in_connections = [] ∧
    ((NodeGene.new none NodeType.HIDDEN exFn 0 (some (exNodeA, exNodeB))
        3).shallow_copy 4).out_connections = [] ∧
    ((NodeGene.new none NodeType.HIDDEN exFn 0 (some (exNodeA, exNodeB))
        3).shallow_copy 4).node_type =
      (NodeGene.new none NodeType.HIDDEN exFn 0 (some (exNodeA, exNodeB))
        3).node_type ∧
    ((NodeGene.new none NodeType.HIDDEN exFn 0 (some (exNodeA, exNodeB))
        3).shallow_copy 4).func =
      (NodeGene.new none NodeType.HIDDEN exFn 0 (some (exNodeA, exNodeB))
        3).func ∧
    ((NodeGene.new none NodeType.HIDDEN exFn 0 (some (exNodeA, exNodeB))
        3).shallow_copy 4).initial_activation =
      (NodeGene.new none NodeType.HIDDEN exFn 0 (some (exNodeA, exNodeB))
        3).initial_activation ∧
    ((NodeGene.new none NodeType.HIDDEN exFn 0 (some (exNodeA, exNodeB))
        3).shallow_copy 4).parents =
      (NodeGene.new none NodeType.HIDDEN exFn 0 (some (exNodeA, exNodeB))
        3).parents ∧
    (∀ i : Int,
      (NodeGene.new none NodeType.HIDDEN exFn 0 (some (exNodeA, exNodeB))
        3).nid = some i →
      ((NodeGene.new none NodeType.HIDDEN exFn 0 (some (exNodeA, exNodeB))
        3).shallow_copy 4).id = some (GeneId.perm i)) ∧
    ((NodeGene.new none NodeType.HIDDEN exFn 0 (some (exNodeA, exNodeB))
        3).nid = none →
      ((NodeGene.new none NodeType.HIDDEN exFn 0 (some (exNodeA, exNodeB))
        3).shallow_copy 4).id = some (GeneId.temp 4) ∧
      ((NodeGene.new none NodeType.HIDDEN exFn 0 (some (exNodeA, exNodeB))
        3).shallow_copy 4).id ≠
        (NodeGene.new none NodeType.HIDDEN exFn 0 (some (exNodeA, exNodeB))
          3).id) :=
  ⟨by decide,
   shallow_copy_spec
     (NodeGene.new none NodeType.HIDDEN exFn 0 (some (exNodeA, exNodeB)) 3) 4
     (by decide)⟩

/-- C8: after any finite sequence of `activate` calls, `reset_activation`
restores the cached activation to the initial activation value supplied at
construction. -/
theorem reset_activation_restores (node_id : Option Int) (t : NodeType)
    (f : Rat → Rat) (a0 : Rat) (p : Option (NodeGene × NodeGene)) (tok : Nat)
    (xs : List Rat) :
    ((xs.foldl NodeGene.activate
        (NodeGene.new node_id t f a0 p tok)).reset_activation).activation =
      a0 := by
  rw [reset_activation_activation, foldl_activate_initial]
  rfl

/-- C10: a shallow copy's cached activation equals the source's initial
activation value, regardless of the `activate` calls made on the source
before copying. -/
theorem shallow_copy_cache_initial (n : NodeGene) (xs : List Rat)
    (tok : Nat) :
    ((xs.foldl NodeGene.activate n).shallow_copy tok).activation =
      n.initial_activation ∧
    (n.shallow_copy tok).activation = n.initial_activation := by
  constructor
  · rw [shallow_copy_activation, foldl_activate_initial]
  · rw [shallow_copy_activation]

/-- C9: a connection gene constructed without an identity reads back the
absence value `none` (it never carries a provisional token), and after a
permanent identity is assigned the read returns that integer. -/
theorem connection_id_lifecycle (from_node to_node : NodeGene) (w : Rat)
    (e : Bool) (i : Int) :
    (ConnectionGene.new none from_node to_node w e).id = none ∧
    ((ConnectionGene.new none from_node to_node w e).trySetId i).1 =
      Except.ok () ∧
    ((ConnectionGene.new none from_node to_node w e).trySetId i).2.id =
      some i := by
  refine ⟨rfl, ?_, ?_⟩ <;> rfl

/-- Fresh source node of the `connection_exists` scenarios (empty adjacency
lists). -/
def freshN1 : NodeGene := NodeGene.new (some 11) NodeType.INPUT exFn 0 none 0

/-- Fresh destination node of the `connection_exists` scenarios. -/
def freshN2 : NodeGene :=
  NodeGene.new (some 12) NodeType.OUTPUT exFn 0 none 0

/-- The connection `freshN1 -> freshN2`. -/
def exConn12 : ConnectionGene :=
  ConnectionGene.new (some 7) freshN1 freshN2 1 true

/-- `freshN1` after `exConn12` was appended to its `out_connections` (the
`in_connections` of the destination not yet updated). -/
def n1WithOut : NodeGene := freshN1.add_out_connection exConn12

/-- `freshN2` after `exConn12` was appended to its `in_connections` (the
`out_connections` of the source not yet updated). -/
def n2WithIn : NodeGene := freshN2.add_in_connection exConn12

/-- C3 evaluation: `connection_exists` is `false` on two fresh nodes (as the
claim states), but it is still `false` when the connection is present on
only one side — the source zips `dest.in_connections` with
`src.out_connections`, and the zip of an empty list with a one-element list
is empty — and only returns `true` once both sides are populated. -/
theorem connection_exists_zip_eval :
    connection_exists freshN1 freshN2 = false ∧
    connection_exists n1WithOut freshN2 = false ∧
    connection_exists freshN1 n2WithIn = false ∧
    connection_exists n1WithOut n2WithIn = true :=
  ⟨rfl, rfl, rfl, rfl⟩
